import Mathlib

/-!
Verification of the transactional document-identifier registry
(`src/lib/src/idx/ft/docids.rs`) and the SQL index-definition grammar
(`src/lib/src/sql/index.rs`).

The registry code under `src/` is embedded directly.  Its collaborators
(the B-tree, the key namespace provider `IndexKeyBase`, the persisted
state codec `SerdeState`, and the transactional key-value interface) are
repository code that is not part of `src/`; they are modelled from the
spec, each with a doc comment saying so.
-/

namespace Docids

/-- Modelled from the spec: the Key Namespace Provider (`IndexKeyBase`,
spec section 4.1 and section 6).  `new_bd_key None` is the registry state key,
`new_bd_key (Some id)` is a tree node key, `new_bi_key id` is a
ReverseEntry key.  The spec requires a total, collision-free set of
physical keys, disjoint between the state key, node keys and reverse
entry keys; an inductive type gives disjointness by construction. -/
inductive KeyT where
  | bd : Option Nat → KeyT
  | bi : Nat → KeyT
deriving DecidableEq, Repr

/-- Error cases surfaced by the registry (spec section 7): corrupt persisted
state, invalid text bytes in a ReverseEntry, and a storage failure of
the underlying transactional interface. -/
inductive Err where
  | corruptState : Err
  | utf8 : Err
  | storage : Err
deriving DecidableEq, Repr

/-- Modelled from the spec: tree-wide metadata (`btree::State`, spec
data-model row TreeState): order (max fan-out), root node identifier,
next node-id counter. -/
structure TreeState where
  order : Nat
  root : Option Nat
  nextNodeId : Nat
deriving DecidableEq, Repr

/-- `State` from `docids.rs`: the persisted RegistryState, the tree state
plus the next document-id counter. -/
structure State where
  btree : TreeState
  next_doc_id : Nat
deriving DecidableEq, Repr

/-- Modelled from the spec: a stored value (`Val`), classified by what the
byte string deserializes as: valid text bytes, a serialized
RegistryState, a serialized tree node, or bytes that match none of the
expected shapes. -/
inductive Val where
  | vStr : String → Val
  | vState : State → Val
  | vNode : List (String × Nat) → Val
  | vJunk : Val
deriving DecidableEq, Repr

/-- Association-list lookup over the physical key space. -/
def alookup (k : KeyT) : List (KeyT × Val) → Option Val
  | [] => none
  | (k', v) :: rest => if k' = k then some v else alookup k rest

/-- Association-list overwrite-or-append over the physical key space. -/
def aset (k : KeyT) (v : Val) : List (KeyT × Val) → List (KeyT × Val)
  | [] => [(k, v)]
  | (k', v') :: rest =>
    if k' = k then (k, v) :: rest else (k', v') :: aset k v rest

/-- Modelled from the spec: the transactional key-value interface
(spec section 6): `get(key) -> Option<Bytes>`, `set(key, Bytes)`, with
read-your-own-writes inside one transaction.  `failSet` lists the keys
on which a `set` fails with a storage error, so that failure
propagation can be stated.  `readLog` and `writeLog` record the reads
and writes issued, so that read/write-count claims can be stated. -/
structure Tx where
  store : List (KeyT × Val)
  failSet : List KeyT
  readLog : List KeyT
  writeLog : List KeyT
deriving DecidableEq, Repr

/-- Modelled from the spec: one transactional read. -/
def Tx.get (tx : Tx) (k : KeyT) : Option Val × Tx :=
  (alookup k tx.store, { tx with readLog := tx.readLog ++ [k] })

/-- Modelled from the spec: one transactional write; fails with a storage
error on the keys of `failSet`, and is then not performed. -/
def Tx.set (tx : Tx) (k : KeyT) (v : Val) : Except Err Tx :=
  if k ∈ tx.failSet then .error .storage
  else .ok { tx with store := aset k v tx.store, writeLog := tx.writeLog ++ [k] }

/-- Lookup of a logical key among the entries of a tree node. -/
def entriesLookup (key : String) : List (String × Nat) → Option Nat
  | [] => none
  | (k, v) :: rest => if k = key then some v else entriesLookup key rest

/-- Insert-or-overwrite of a logical key among the entries of a tree node. -/
def entriesInsert (key : String) (v : Nat) : List (String × Nat) → List (String × Nat)
  | [] => [(key, v)]
  | (k, v') :: rest =>
    if k = key then (key, v) :: rest else (k, v') :: entriesInsert key v rest

/-- Modelled from the spec: the Ordered Search Tree handle
(`BTree<DocIdsKeyProvider>`, spec section 4.2): tree state plus the
`is_updated` flag, all node storage going through the transaction. -/
structure BTree where
  state : TreeState
  updated : Bool
deriving DecidableEq, Repr

/-- `BTree::new` as used by `DocIds::new`: a handle over a given tree
state, not yet updated. -/
def BTree.new (state : TreeState) : BTree :=
  { state := state, updated := false }

/-- Modelled from the spec: `BTree::search` (spec section 4.2): a
descend-and-compare traversal through transactional reads; returns the
stored value or absence, mutates nothing, and surfaces a corrupt-state
error when a node fails to decode.  The claims under verification never
exercise node splitting, so the model keeps the node set reachable from
the root as a single persisted node. -/
def BTree.search (bt : BTree) (tx : Tx) (key : String) :
    Except Err (Option Nat) × Tx :=
  match bt.state.root with
  | none => (.ok none, tx)
  | some r =>
    match tx.get (KeyT.bd (some r)) with
    | (some (Val.vNode es), tx') => (.ok (entriesLookup key es), tx')
    | (some _, tx') => (.error .corruptState, tx')
    | (none, tx') => (.error .corruptState, tx')

/-- Modelled from the spec: `BTree::insert` (spec section 4.2): descends to
the target leaf and persists the mutated node through the transaction;
allocates a new node id from the monotonic counter when a new root is
needed; records that a write was performed.  Node splitting is not
exercised by the claims and is not modelled. -/
def BTree.insert (bt : BTree) (tx : Tx) (key : String) (v : Nat) :
    Except Err Unit × BTree × Tx :=
  match bt.state.root with
  | none =>
    let nid := bt.state.nextNodeId
    match tx.set (KeyT.bd (some nid)) (Val.vNode [(key, v)]) with
    | .error e => (.error e, bt, tx)
    | .ok tx' =>
      (.ok (),
       { state := { bt.state with root := some nid, nextNodeId := nid + 1 },
         updated := true }, tx')
  | some r =>
    match tx.get (KeyT.bd (some r)) with
    | (some (Val.vNode es), tx1) =>
      match tx1.set (KeyT.bd (some r)) (Val.vNode (entriesInsert key v es)) with
      | .error e => (.error e, bt, tx1)
      | .ok tx2 => (.ok (), { bt with updated := true }, tx2)
    | (_, tx1) => (.error .corruptState, bt, tx1)

/-- `BTree::is_updated` (spec section 4.2): true if any insert performed a
write since construction. -/
def BTree.is_updated (bt : BTree) : Bool := bt.updated

/-- `BTree::get_state` (spec section 4.2): the current tree state, for
inclusion in the owner's persisted state. -/
def BTree.get_state (bt : BTree) : TreeState := bt.state

/-- Modelled from the spec: `btree::State::new` (spec section 4.3):
initializes the TreeState with the supplied default order, no root, and
the node-id counter at zero. -/
def TreeState.new (default_btree_order : Nat) : TreeState :=
  { order := default_btree_order, root := none, nextNodeId := 0 }

/-- `State::new` from `docids.rs`: fresh tree state with the default order
and the next-id counter at 0. -/
def State.new (default_btree_order : Nat) : State :=
  { btree := TreeState.new default_btree_order, next_doc_id := 0 }

/-- Modelled from the spec: the Persisted State Codec's deserialization
(`SerdeState::try_from_val`, spec section 4.4): succeeds exactly on bytes
that are a serialized RegistryState, and fails loudly with a distinct
corrupt-state error on any other byte sequence. -/
def State.try_from_val : Val → Except Err State
  | Val.vState st => .ok st
  | _ => .error .corruptState

/-- Modelled from the spec: the Persisted State Codec's serialization
(`SerdeState::try_to_val`, spec section 4.4); round-trips exactly with
`State.try_from_val`. -/
def State.try_to_val (st : State) : Val := Val.vState st

/-- Modelled from the spec: `String::from_utf8` over stored bytes: succeeds
exactly on valid text bytes and fails with a decoding error otherwise. -/
def from_utf8 : Val → Except Err String
  | Val.vStr s => .ok s
  | _ => .error .utf8

/-- `DocIds` from `docids.rs`: the Document-Identifier Registry: state key,
tree handle, next document-id counter and dirty flag.  (The
`index_key_base` field is represented by the `KeyT` constructors.) -/
structure DocIds where
  state_key : KeyT
  btree : BTree
  next_doc_id : Nat
  updated : Bool
deriving DecidableEq, Repr

/-- `DocIds::new` from `docids.rs`: one transactional read of the state
key; if a value is present it must deserialize as a RegistryState
(otherwise the corrupt-state error is surfaced), and if absent a fresh
state with the default order and counter 0 is used. -/
def DocIds.new (tx : Tx) (default_btree_order : Nat) :
    Except Err DocIds × Tx :=
  let state_key : KeyT := KeyT.bd none
  match tx.get state_key with
  | (some val, tx1) =>
    match State.try_from_val val with
    | .error e => (.error e, tx1)
    | .ok st =>
      (.ok { state_key := state_key, btree := BTree.new st.btree,
             next_doc_id := st.next_doc_id, updated := false }, tx1)
  | (none, tx1) =>
    let st := State.new default_btree_order
    (.ok { state_key := state_key, btree := BTree.new st.btree,
           next_doc_id := st.next_doc_id, updated := false }, tx1)

/-- `DocIds::resolve_doc_id` from `docids.rs`: search the tree for the
key; on hit return the existing id; on miss allocate `next_doc_id`,
write the ReverseEntry, insert the key into the tree, then increment the
counter and mark the registry dirty.  Errors propagate with the
registry fields unchanged, mirroring the early `?`-returns of the
source. -/
def DocIds.resolve_doc_id (d : DocIds) (tx : Tx) (doc_key : String) :
    Except Err Nat × DocIds × Tx :=
  match d.btree.search tx doc_key with
  | (.error e, tx') => (.error e, d, tx')
  | (.ok (some doc_id), tx') => (.ok doc_id, d, tx')
  | (.ok none, tx') =>
    let doc_id := d.next_doc_id
    match tx'.set (KeyT.bi doc_id) (Val.vStr doc_key) with
    | .error e => (.error e, d, tx')
    | .ok tx1 =>
      match d.btree.insert tx1 doc_key doc_id with
      | (.error e, _, tx2) => (.error e, d, tx2)
      | (.ok (), bt, tx2) =>
        (.ok doc_id,
         { d with btree := bt, next_doc_id := doc_id + 1, updated := true },
         tx2)

/-- `DocIds::get_doc_key` from `docids.rs`: read the ReverseEntry for the
id; `none` when absent, the decoded text when the bytes are valid text,
a decoding error otherwise. -/
def DocIds.get_doc_key (_d : DocIds) (tx : Tx) (doc_id : Nat) :
    Except Err (Option String) × Tx :=
  match tx.get (KeyT.bi doc_id) with
  | (some val, tx1) =>
    match from_utf8 val with
    | .ok s => (.ok (some s), tx1)
    | .error e => (.error e, tx1)
  | (none, tx1) => (.ok none, tx1)

/-- `DocIds::finish` from `docids.rs`: when the registry is dirty or the
tree reports itself updated, write the combined RegistryState to the
state key; otherwise do nothing. -/
def DocIds.finish (d : DocIds) (tx : Tx) : Except Err Unit × Tx :=
  if d.updated || d.btree.is_updated then
    let st : State := { btree := d.btree.get_state, next_doc_id := d.next_doc_id }
    match tx.set d.state_key st.try_to_val with
    | .error e => (.error e, tx)
    | .ok tx' => (.ok (), tx')
  else (.ok (), tx)

/-- Resolution of a list of keys in order within one transaction, stopping
at the first error; the list of returned ids is collected. -/
def resolveList (d : DocIds) (tx : Tx) : List String →
    Except Err (List Nat) × DocIds × Tx
  | [] => (.ok [], d, tx)
  | k :: ks =>
    match d.resolve_doc_id tx k with
    | (.error e, d', tx') => (.error e, d', tx')
    | (.ok id, d', tx') =>
      match resolveList d' tx' ks with
      | (.error e, d'', tx'') => (.error e, d'', tx'')
      | (.ok ids, d'', tx'') => (.ok (id :: ids), d'', tx'')

/-- Whether a stored value is present and decodes as a tree node. -/
def isNodeOpt : Option Val → Bool
  | some (Val.vNode _) => true
  | _ => false

/-- The root node of the tree decodes as a node in the given transaction
(trivially true for an empty tree).  All tree operations of the claims
stay readable under this condition. -/
def readableRoot (bt : BTree) (tx : Tx) : Bool :=
  match bt.state.root with
  | none => true
  | some r => isNodeOpt (alookup (KeyT.bd (some r)) tx.store)

/-- The logical key-to-id content of the tree as persisted in the given
transaction. -/
def treeContent (bt : BTree) (tx : Tx) : List (String × Nat) :=
  match bt.state.root with
  | none => []
  | some r =>
    match alookup (KeyT.bd (some r)) tx.store with
    | some (Val.vNode es) => es
    | _ => []

end Docids

namespace Docids

/-- Commit of a transaction followed by the start of the next one: the
next transaction observes the committed store, with fresh logs and no
injected storage failures. -/
def commit (tx : Tx) : Tx :=
  { store := tx.store, failSet := [], readLog := [], writeLog := [] }

/-- An empty transaction over an empty store. -/
def txEmpty : Tx := { store := [], failSet := [], readLog := [], writeLog := [] }

/-- A freshly initialized registry with default order 75 (the order used
by the repository's own test). -/
def d75 : DocIds :=
  { state_key := KeyT.bd none, btree := BTree.new (TreeState.new 75),
    next_doc_id := 0, updated := false }

/-- A committed store holding one resolved key: tree node 0 maps the key
Foo to id 0, and the ReverseEntry for id 0 holds Foo. -/
def txFoo : Tx :=
  { store := [(KeyT.bd (some 0), Val.vNode [("Foo", 0)]),
              (KeyT.bi 0, Val.vStr "Foo")],
    failSet := [], readLog := [], writeLog := [] }

/-- The registry as loaded over `txFoo`: root node 0, one allocated id. -/
def dFoo : DocIds :=
  { state_key := KeyT.bd none,
    btree := BTree.new { order := 75, root := some 0, nextNodeId := 1 },
    next_doc_id := 1, updated := false }

/-- A transaction whose ReverseEntry write for id 0 fails with a storage
error. -/
def txFailBi0 : Tx :=
  { store := [], failSet := [KeyT.bi 0], readLog := [], writeLog := [] }

end Docids

namespace Sql

/-- nom's parse result, specialised as the source does to string input:
remaining input and parsed value on success, `none` on failure. -/
abbrev IResult (α : Type) : Type := Option (String × α)

/-- `Ident` (an analyzer identifier); its parser lives outside `src/`. -/
structure Ident where
  val : String
deriving DecidableEq, Repr

/-- Modelled from the spec: `Number` (`src/lib/src/sql/number.rs`, not
under `src/`).  The index grammar only ever stores `Number::Int`
(`Index::Search` defaults to `Number::Int(100)`), so only that variant
is modelled. -/
inductive Number where
  | Int : Int → Number
deriving DecidableEq, Repr

/-- Modelled from the spec: the scoring-model choice (`Scoring`,
`src/lib/src/sql/scoring.rs`, not under `src/`): a BM25-style or a
vector-search scoring model. -/
inductive Scoring where
  | Bm : Scoring
  | Vs : Scoring
deriving DecidableEq, Repr

/-- `Index` from `src/lib/src/sql/index.rs`: plain, unique, or full-text
search with analyzer, highlight flag, scoring model and order. -/
inductive Index where
  | Idx : Index
  | Uniq : Index
  | Search : Ident → Bool → Scoring → Number → Index
deriving DecidableEq, Repr

/-- Drop the longest run of characters satisfying `p` from the head. -/
def dropWhileL (p : Char → Bool) : List Char → List Char
  | [] => []
  | c :: cs => if p c then dropWhileL p cs else c :: cs

/-- Split off the longest run of characters satisfying `p` at the head. -/
def spanL (p : Char → Bool) : List Char → List Char × List Char
  | [] => ([], [])
  | c :: cs =>
    if p c then
      match spanL p cs with
      | (pre, post) => (c :: pre, post)
    else ([], c :: cs)

/-- Exact match of the first list at the head of the second; returns the
remaining input on success. -/
def splitTag : List Char → List Char → Option (List Char)
  | [], i => some i
  | _ :: _, [] => none
  | a :: as, b :: bs => if a = b then splitTag as bs else none

/-- Case-insensitive match of the first list at the head of the second;
returns the matched input slice and the remaining input on success. -/
def splitTagNoCase : List Char → List Char → Option (List Char × List Char)
  | [], i => some ([], i)
  | _ :: _, [] => none
  | a :: as, b :: bs =>
    if a.toLower = b.toLower then
      match splitTagNoCase as bs with
      | some (m, rest) => some (b :: m, rest)
      | none => none
    else none

/-- nom's `tag`: exact match of a literal at the head of the input. -/
def tag (t : String) (i : String) : IResult String :=
  match splitTag t.data i.data with
  | some rest => some (String.mk rest, t)
  | none => none

/-- nom's `tag_no_case`: case-insensitive match of a literal at the head
of the input; returns the matched input slice. -/
def tag_no_case (t : String) (i : String) : IResult String :=
  match splitTagNoCase t.data i.data with
  | some (m, rest) => some (String.mk rest, String.mk m)
  | none => none

/-- Modelled from the spec: `mightbespace`
(`src/lib/src/sql/comment.rs`, not under `src/`): consumes any amount of
whitespace, possibly none; never fails. -/
def mightbespace (i : String) : IResult Unit :=
  some (String.mk (dropWhileL Char.isWhitespace i.data), ())

/-- Modelled from the spec: `shouldbespace`
(`src/lib/src/sql/comment.rs`, not under `src/`): consumes at least one
whitespace character. -/
def shouldbespace (i : String) : IResult Unit :=
  match i.data with
  | [] => none
  | c :: cs =>
    if c.isWhitespace then
      some (String.mk (dropWhileL Char.isWhitespace cs), ())
    else none

/-- Modelled from the spec: `ident` (`src/lib/src/sql/ident.rs`, not
under `src/`): a non-empty run of identifier characters. -/
def ident (i : String) : IResult Ident :=
  match spanL (fun c => c.isAlphanum || c = '_') i.data with
  | ([], _) => none
  | (name, rest) => some (String.mk rest, ⟨String.mk name⟩)

/-- Modelled from the spec: `scoring` (`src/lib/src/sql/scoring.rs`, not
under `src/`): parses the scoring-model choice. -/
def scoring (i : String) : IResult Scoring :=
  match tag_no_case "BM25" i with
  | some (i1, _) => some (i1, Scoring.Bm)
  | none =>
    match tag_no_case "VS" i with
    | some (i1, _) => some (i1, Scoring.Vs)
    | none => none

/-- The numeric value of a run of decimal digit characters. -/
def digitsToNat (acc : Nat) : List Char → Nat
  | [] => acc
  | c :: cs => digitsToNat (acc * 10 + (c.toNat - 48)) cs

/-- Modelled from the spec: `number` (`src/lib/src/sql/number.rs`, not
under `src/`): a non-empty run of digits, read as an integer. -/
def number (i : String) : IResult Number :=
  match spanL Char.isDigit i.data with
  | ([], _) => none
  | (ds, rest) => some (String.mk rest, Number.Int (digitsToNat 0 ds))

/-- nom's `opt`: an optional parse that never fails. -/
def opt {α : Type} (p : String → IResult α) (i : String) : String × Option α :=
  match p i with
  | some (i1, v) => (i1, some v)
  | none => (i, none)

/-- `order` from `src/lib/src/sql/index.rs`: optional space, the keyword
ORDER, mandatory space, then a number. -/
def order (i : String) : IResult Number :=
  match mightbespace i with
  | none => none
  | some (i1, _) =>
    match tag_no_case "ORDER" i1 with
    | none => none
    | some (i2, _) =>
      match shouldbespace i2 with
      | none => none
      | some (i3, _) =>
        match number i3 with
        | none => none
        | some (i4, o) => some (i4, o)

/-- `highlights` from `src/lib/src/sql/index.rs`: optional space, then
the literal HIGHLIGHTS or nothing. -/
def highlights (i : String) : IResult Bool :=
  match mightbespace i with
  | none => none
  | some (i1, _) =>
    match tag "HIGHLIGHTS" i1 with
    | some (i2, _) => some (i2, true)
    | none => some (i1, false)

/-- `search` from `src/lib/src/sql/index.rs`: SEARCH, analyzer
identifier, scoring model, optional ORDER clause (defaulting to
`Number::Int 100`), optional HIGHLIGHTS. -/
def search (i : String) : IResult Index :=
  match tag_no_case "SEARCH" i with
  | none => none
  | some (i1, _) =>
    match shouldbespace i1 with
    | none => none
    | some (i2, _) =>
      match ident i2 with
      | none => none
      | some (i3, az) =>
        match shouldbespace i3 with
        | none => none
        | some (i4, _) =>
          match scoring i4 with
          | none => none
          | some (i5, sc) =>
            match opt order i5 with
            | (i6, o) =>
              match highlights i6 with
              | none => none
              | some (i7, hl) =>
                some (i7, Index.Search az hl sc (o.getD (Number.Int 100)))

/-- `unique` from `src/lib/src/sql/index.rs`. -/
def unique (i : String) : IResult Index :=
  match tag_no_case "UNIQUE" i with
  | some (i1, _) => some (i1, Index.Uniq)
  | none => none

/-- `non_unique` from `src/lib/src/sql/index.rs`: matches the empty tag,
so it always succeeds with `Index::Idx`. -/
def non_unique (i : String) : IResult Index :=
  some (i, Index.Idx)

/-- `index` from `src/lib/src/sql/index.rs`: unique, search, or plain. -/
def index (i : String) : IResult Index :=
  match unique i with
  | some r => some r
  | none =>
    match search i with
    | some r => some r
    | none => non_unique i

end Sql

namespace Docids

theorem alookup_aset_self (k : KeyT) (v : Val) (l : List (KeyT × Val)) :
    alookup k (aset k v l) = some v := by
  induction l with
  | nil => simp [aset, alookup]
  | cons hd tl ih =>
    obtain ⟨k0, v0⟩ := hd
    by_cases h : k0 = k
    · simp [aset, alookup, h]
    · simp [aset, alookup, h, ih]

theorem alookup_aset_ne (k k' : KeyT) (v : Val) (l : List (KeyT × Val))
    (h : k' ≠ k) : alookup k' (aset k v l) = alookup k' l := by
  have hks : ¬k = k' := fun hh => h hh.symm
  induction l with
  | nil => simp [aset, alookup, hks]
  | cons hd tl ih =>
    obtain ⟨k0, v0⟩ := hd
    by_cases h0 : k0 = k
    · simp [aset, alookup, h0, hks]
    · simp [aset, alookup, h0, ih]

theorem entriesLookup_insert_self (k : String) (v : Nat)
    (es : List (String × Nat)) :
    entriesLookup k (entriesInsert k v es) = some v := by
  induction es with
  | nil => simp [entriesInsert, entriesLookup]
  | cons hd tl ih =>
    obtain ⟨k0, v0⟩ := hd
    by_cases h : k0 = k
    · simp [entriesInsert, entriesLookup, h]
    · simp [entriesInsert, entriesLookup, h, ih]

theorem entriesLookup_insert_ne (k k' : String) (v : Nat)
    (es : List (String × Nat)) (h : k' ≠ k) :
    entriesLookup k' (entriesInsert k v es) = entriesLookup k' es := by
  have hks : ¬k = k' := fun hh => h hh.symm
  induction es with
  | nil => simp [entriesInsert, entriesLookup, hks]
  | cons hd tl ih =>
    obtain ⟨k0, v0⟩ := hd
    by_cases h0 : k0 = k
    · simp [entriesInsert, entriesLookup, h0, hks]
    · simp [entriesInsert, entriesLookup, h0, ih]

theorem BTree.search_spec (bt : BTree) (tx : Tx) (key : String)
    (h : readableRoot bt tx = true) :
    (bt.search tx key).1 = .ok (entriesLookup key (treeContent bt tx)) ∧
    (bt.search tx key).2.store = tx.store ∧
    (bt.search tx key).2.failSet = tx.failSet ∧
    (bt.search tx key).2.writeLog = tx.writeLog := by
  cases hr : bt.state.root with
  | none => simp [BTree.search, treeContent, entriesLookup, hr]
  | some r =>
    simp only [readableRoot, hr] at h
    cases hv : alookup (KeyT.bd (some r)) tx.store with
    | none => rw [hv] at h; simp [isNodeOpt] at h
    | some v =>
      rw [hv] at h
      cases v with
      | vNode es => simp [BTree.search, treeContent, Tx.get, hr, hv]
      | vStr s => simp [isNodeOpt] at h
      | vState st => simp [isNodeOpt] at h
      | vJunk => simp [isNodeOpt] at h

end Docids

namespace Docids

theorem BTree.insert_spec (bt : BTree) (tx : Tx) (key : String) (v : Nat)
    (hf : tx.failSet = []) (h : readableRoot bt tx = true) :
    (bt.insert tx key v).1 = .ok () ∧
    (bt.insert tx key v).2.1.updated = true ∧
    readableRoot (bt.insert tx key v).2.1 (bt.insert tx key v).2.2 = true ∧
    treeContent (bt.insert tx key v).2.1 (bt.insert tx key v).2.2 =
      entriesInsert key v (treeContent bt tx) ∧
    (bt.insert tx key v).2.2.failSet = [] ∧
    (∀ j, alookup (KeyT.bi j) (bt.insert tx key v).2.2.store =
      alookup (KeyT.bi j) tx.store) ∧
    alookup (KeyT.bd none) (bt.insert tx key v).2.2.store =
      alookup (KeyT.bd none) tx.store := by
  cases hr : bt.state.root with
  | none =>
    refine ⟨?_, ?_, ?_, ?_, ?_, ?_, ?_⟩ <;>
      simp [BTree.insert, hr, Tx.set, hf, readableRoot, treeContent, isNodeOpt,
            alookup_aset_self, entriesInsert, alookup_aset_ne]
  | some r =>
    simp only [readableRoot, hr] at h
    cases hv : alookup (KeyT.bd (some r)) tx.store with
    | none => rw [hv] at h; simp [isNodeOpt] at h
    | some w =>
      rw [hv] at h
      cases w with
      | vNode es =>
        refine ⟨?_, ?_, ?_, ?_, ?_, ?_, ?_⟩ <;>
          simp [BTree.insert, hr, hv, Tx.get, Tx.set, hf, readableRoot,
                treeContent, isNodeOpt, alookup_aset_self, alookup_aset_ne]
      | vStr s => simp [isNodeOpt] at h
      | vState st => simp [isNodeOpt] at h
      | vJunk => simp [isNodeOpt] at h

end Docids

namespace Docids

theorem DocIds.resolve_hit (d : DocIds) (tx : Tx) (key : String) (id : Nat)
    (h : readableRoot d.btree tx = true)
    (hk : entriesLookup key (treeContent d.btree tx) = some id) :
    (d.resolve_doc_id tx key).1 = .ok id ∧
    (d.resolve_doc_id tx key).2.1 = d ∧
    (d.resolve_doc_id tx key).2.2.store = tx.store ∧
    (d.resolve_doc_id tx key).2.2.writeLog = tx.writeLog ∧
    (d.resolve_doc_id tx key).2.2.failSet = tx.failSet := by
  cases hr : d.btree.state.root with
  | none => simp [treeContent, hr, entriesLookup] at hk
  | some r =>
    simp only [readableRoot, hr] at h
    cases hv : alookup (KeyT.bd (some r)) tx.store with
    | none => rw [hv] at h; simp [isNodeOpt] at h
    | some w =>
      rw [hv] at h
      cases w with
      | vNode es =>
        simp only [treeContent, hr, hv] at hk
        refine ⟨?_, ?_, ?_, ?_, ?_⟩ <;>
          simp [DocIds.resolve_doc_id, BTree.search, Tx.get, hr, hv, hk]
      | vStr s => simp [isNodeOpt] at h
      | vState st => simp [isNodeOpt] at h
      | vJunk => simp [isNodeOpt] at h

theorem DocIds.resolve_miss (d : DocIds) (tx : Tx) (key : String)
    (hf : tx.failSet = [])
    (h : readableRoot d.btree tx = true)
    (hk : entriesLookup key (treeContent d.btree tx) = none) :
    (d.resolve_doc_id tx key).1 = .ok d.next_doc_id ∧
    (d.resolve_doc_id tx key).2.1.next_doc_id = d.next_doc_id + 1 ∧
    (d.resolve_doc_id tx key).2.1.updated = true ∧
    (d.resolve_doc_id tx key).2.1.btree.updated = true ∧
    (d.resolve_doc_id tx key).2.1.state_key = d.state_key ∧
    readableRoot (d.resolve_doc_id tx key).2.1.btree
      (d.resolve_doc_id tx key).2.2 = true ∧
    treeContent (d.resolve_doc_id tx key).2.1.btree
      (d.resolve_doc_id tx key).2.2 =
      entriesInsert key d.next_doc_id (treeContent d.btree tx) ∧
    (d.resolve_doc_id tx key).2.2.failSet = [] ∧
    alookup (KeyT.bi d.next_doc_id) (d.resolve_doc_id tx key).2.2.store =
      some (Val.vStr key) ∧
    (∀ j, j ≠ d.next_doc_id →
      alookup (KeyT.bi j) (d.resolve_doc_id tx key).2.2.store =
        alookup (KeyT.bi j) tx.store) ∧
    alookup (KeyT.bd none) (d.resolve_doc_id tx key).2.2.store =
      alookup (KeyT.bd none) tx.store := by
  cases hr : d.btree.state.root with
  | none =>
    refine ⟨?_, ?_, ?_, ?_, ?_, ?_, ?_, ?_, ?_, ?_, ?_⟩ <;>
      simp [DocIds.resolve_doc_id, BTree.search, BTree.insert, Tx.get, Tx.set,
            hf, hr, treeContent, readableRoot, isNodeOpt, entriesInsert,
            alookup_aset_self, alookup_aset_ne]
    intro j hj
    exact alookup_aset_ne _ _ _ _ (by simp [hj])
  | some r =>
    simp only [readableRoot, hr] at h
    cases hv : alookup (KeyT.bd (some r)) tx.store with
    | none => rw [hv] at h; simp [isNodeOpt] at h
    | some w =>
      rw [hv] at h
      cases w with
      | vNode es =>
        simp only [treeContent, hr, hv] at hk
        refine ⟨?_, ?_, ?_, ?_, ?_, ?_, ?_, ?_, ?_, ?_, ?_⟩ <;>
          simp [DocIds.resolve_doc_id, BTree.search, BTree.insert, Tx.get,
                Tx.set, hf, hr, hv, hk, treeContent, readableRoot, isNodeOpt,
                alookup_aset_self, alookup_aset_ne]
        intro j hj
        exact alookup_aset_ne _ _ _ _ (by simp [hj])
      | vStr s => simp [isNodeOpt] at h
      | vState st => simp [isNodeOpt] at h
      | vJunk => simp [isNodeOpt] at h

end Docids

namespace Docids

/-- C1: resolving a sequence of pairwise-distinct, not-yet-present keys in
one transaction returns exactly the ids `n, n+1, …` (with `n` the
counter at load time) in first-resolution order; each miss writes the
ReverseEntry, inserts the key into the tree, increments the counter by
one, and marks the registry dirty. -/
theorem claim_C1_contiguous_ids (ks : List String) :
    ∀ (d : DocIds) (tx : Tx),
    tx.failSet = [] →
    readableRoot d.btree tx = true →
    ks.Nodup →
    (∀ k ∈ ks, entriesLookup k (treeContent d.btree tx) = none) →
    (resolveList d tx ks).1 = .ok (List.range' d.next_doc_id ks.length) ∧
    (resolveList d tx ks).2.1.next_doc_id = d.next_doc_id + ks.length ∧
    (resolveList d tx ks).2.1.updated = (d.updated || !ks.isEmpty) ∧
    (resolveList d tx ks).2.2.failSet = [] ∧
    readableRoot (resolveList d tx ks).2.1.btree (resolveList d tx ks).2.2 =
      true ∧
    (∀ i (hi : i < ks.length),
      entriesLookup (ks.get ⟨i, hi⟩)
        (treeContent (resolveList d tx ks).2.1.btree
          (resolveList d tx ks).2.2) = some (d.next_doc_id + i)) ∧
    (∀ k', k' ∉ ks →
      entriesLookup k'
        (treeContent (resolveList d tx ks).2.1.btree
          (resolveList d tx ks).2.2) =
        entriesLookup k' (treeContent d.btree tx)) ∧
    (∀ i (hi : i < ks.length),
      alookup (KeyT.bi (d.next_doc_id + i)) (resolveList d tx ks).2.2.store =
        some (Val.vStr (ks.get ⟨i, hi⟩))) ∧
    (∀ j, j < d.next_doc_id →
      alookup (KeyT.bi j) (resolveList d tx ks).2.2.store =
        alookup (KeyT.bi j) tx.store) := by
  induction ks with
  | nil =>
    intro d tx hf h _ _
    refine ⟨rfl, rfl, by simp [resolveList], hf, h, ?_, ?_, ?_, ?_⟩ <;>
      simp [resolveList]
  | cons k ks ih =>
    intro d tx hf h hnd hfresh
    have hkfresh : entriesLookup k (treeContent d.btree tx) = none :=
      hfresh k (by simp)
    obtain ⟨e1, e2, e3, e4, e5, e6, e7, e8, e9, e10, e11⟩ :=
      DocIds.resolve_miss d tx k hf h hkfresh
    rcases hrq : d.resolve_doc_id tx k with ⟨fst, d', tx'⟩
    simp only [hrq] at e1 e2 e3 e4 e5 e6 e7 e8 e9 e10 e11
    subst e1
    have hknotin : k ∉ ks := (List.nodup_cons.mp hnd).1
    have hnd' : ks.Nodup := (List.nodup_cons.mp hnd).2
    have hfresh' : ∀ k' ∈ ks, entriesLookup k' (treeContent d'.btree tx') = none := by
      intro k' hk'
      rw [e7, entriesLookup_insert_ne _ _ _ _ (by rintro rfl; exact hknotin hk')]
      exact hfresh k' (by simp [hk'])
    obtain ⟨i1, i2, i3, i4, i5, i6, i7, i8, i9⟩ := ih d' tx' e8 e6 hnd' hfresh'
    rcases hrq2 : resolveList d' tx' ks with ⟨fst2, d'', tx''⟩
    simp only [hrq2] at i1 i2 i3 i4 i5 i6 i7 i8 i9
    subst i1
    simp only [resolveList, hrq, hrq2]
    refine ⟨?_, ?_, ?_, i4, i5, ?_, ?_, ?_, ?_⟩
    · rw [e2, List.length_cons, List.range'_succ d.next_doc_id ks.length 1]
    · rw [i2, e2, List.length_cons]; omega
    · rw [i3, e3]; simp
    · intro i hi
      match i with
      | 0 =>
        have := i7 k hknotin
        rw [List.get] at *
        rw [this, e7, entriesLookup_insert_self]
        simp
      | Nat.succ i' =>
        have hi' : i' < ks.length := by
          simp [List.length_cons] at hi; omega
        have := i6 i' hi'
        rw [e2] at this
        rw [List.get]
        rw [this]
        congr 1
        omega
    · intro k' hk'
      have hk'k : k' ≠ k := by intro hh; exact hk' (by simp [hh])
      have hk'ks : k' ∉ ks := fun hh => hk' (by simp [hh])
      rw [i7 k' hk'ks, e7, entriesLookup_insert_ne _ _ _ _ hk'k]
    · intro i hi
      match i with
      | 0 =>
        have := i9 d.next_doc_id (by omega)
        rw [Nat.add_zero, this, e9]
        rfl
      | Nat.succ i' =>
        have hi' : i' < ks.length := by
          simp [List.length_cons] at hi; omega
        have := i8 i' hi'
        rw [e2] at this
        rw [List.get]
        rw [show d.next_doc_id + (i' + 1) = d.next_doc_id + 1 + i' by omega, this]
    · intro j hj
      have := i9 j (by omega)
      rw [this, e10 j (by omega)]

end Docids

namespace Docids

theorem readableRoot_congr (bt : BTree) (tx tx' : Tx)
    (h : ∀ r, alookup (KeyT.bd (some r)) tx'.store =
      alookup (KeyT.bd (some r)) tx.store) :
    readableRoot bt tx' = readableRoot bt tx := by
  unfold readableRoot
  simp only [h]

theorem treeContent_congr (bt : BTree) (tx tx' : Tx)
    (h : ∀ r, alookup (KeyT.bd (some r)) tx'.store =
      alookup (KeyT.bd (some r)) tx.store) :
    treeContent bt tx' = treeContent bt tx := by
  unfold treeContent
  simp only [h]

/-- C2: on a hit, `resolve_doc_id` returns the existing id and mutates
nothing: the registry record (so its `next_doc_id` counter and its dirty
flag) is unchanged, the transaction store is unchanged, and no
transactional write is issued. -/
theorem claim_C2_hit_no_mutation (d : DocIds) (tx : Tx) (key : String)
    (id : Nat)
    (h : readableRoot d.btree tx = true)
    (hk : entriesLookup key (treeContent d.btree tx) = some id) :
    (d.resolve_doc_id tx key).1 = .ok id ∧
    (d.resolve_doc_id tx key).2.1 = d ∧
    (d.resolve_doc_id tx key).2.1.next_doc_id = d.next_doc_id ∧
    (d.resolve_doc_id tx key).2.1.updated = d.updated ∧
    (d.resolve_doc_id tx key).2.2.store = tx.store ∧
    (d.resolve_doc_id tx key).2.2.writeLog = tx.writeLog := by
  obtain ⟨h1, h2, h3, h4, h5⟩ := DocIds.resolve_hit d tx key id h hk
  exact ⟨h1, h2, by rw [h2], by rw [h2], h3, h4⟩

/-- C2 witness: resolving the already-present key Foo over the committed
one-key store returns id 0 and leaves the registry untouched. -/
theorem claim_C2_hit_no_mutation_witness :
    (dFoo.resolve_doc_id txFoo "Foo").1 = .ok 0 ∧
    (dFoo.resolve_doc_id txFoo "Foo").2.1 = dFoo ∧
    (dFoo.resolve_doc_id txFoo "Foo").2.2.store = txFoo.store ∧
    (dFoo.resolve_doc_id txFoo "Foo").2.2.writeLog = txFoo.writeLog := by
  have h := claim_C2_hit_no_mutation dFoo txFoo "Foo" 0 (by decide) (by decide)
  exact ⟨h.1, h.2.1, h.2.2.2.2.1, h.2.2.2.2.2⟩

/-- C3: when `resolve_doc_id` succeeds, `get_doc_key` on the returned id
(inside the same transaction, whose pending writes a commit makes
durable) yields the resolved key.  The hypothesis `hinv` is the
registry invariant that every committed tree entry has its
ReverseEntry. -/
theorem claim_C3_roundtrip (d : DocIds) (tx : Tx) (key : String) (id : Nat)
    (hf : tx.failSet = [])
    (h : readableRoot d.btree tx = true)
    (hinv : ∀ k i, entriesLookup k (treeContent d.btree tx) = some i →
      alookup (KeyT.bi i) tx.store = some (Val.vStr k))
    (hres : (d.resolve_doc_id tx key).1 = .ok id) :
    ((d.resolve_doc_id tx key).2.1.get_doc_key
      (d.resolve_doc_id tx key).2.2 id).1 = .ok (some key) := by
  cases hlk : entriesLookup key (treeContent d.btree tx) with
  | some i =>
    obtain ⟨h1, h2, h3, h4, h5⟩ := DocIds.resolve_hit d tx key i h hlk
    rw [h1] at hres
    injection hres with hii
    rw [← hii]
    have hbi := hinv key i hlk
    simp [DocIds.get_doc_key, Tx.get, h3, hbi, from_utf8]
  | none =>
    obtain ⟨e1, e2, e3, e4, e5, e6, e7, e8, e9, e10, e11⟩ :=
      DocIds.resolve_miss d tx key hf h hlk
    rw [e1] at hres
    injection hres with hii
    rw [← hii]
    simp [DocIds.get_doc_key, Tx.get, e9, from_utf8]

/-- C3 witness: resolving the fresh key Foo over the empty store and
reading the returned id 0 back yields Foo. -/
theorem claim_C3_roundtrip_witness :
    ((d75.resolve_doc_id txEmpty "Foo").2.1.get_doc_key
      (d75.resolve_doc_id txEmpty "Foo").2.2 0).1 = .ok (some "Foo") := by
  have h := claim_C3_roundtrip d75 txEmpty "Foo" 0 rfl (by decide)
    (by intro k i hcontra
        simp [d75, treeContent, entriesLookup, BTree.new, TreeState.new] at hcontra)
    rfl
  exact h

end Docids

namespace Docids

/-- C4: after a fresh key's resolution is finished and committed,
re-loading the registry in a later transaction and resolving the same
key returns the same id, leaves the registry record unchanged, and does
not increment the next-id counter. -/
theorem claim_C4_idempotent_across_tx (d d1 : DocIds) (tx tx1 tx2 : Tx)
    (key : String) (ord : Nat) (id : Nat)
    (hf : tx.failSet = [])
    (hsk : d.state_key = KeyT.bd none)
    (h : readableRoot d.btree tx = true)
    (hk : entriesLookup key (treeContent d.btree tx) = none)
    (hres : d.resolve_doc_id tx key = (.ok id, d1, tx1))
    (hfin : d1.finish tx1 = (.ok (), tx2)) :
    ∃ d2 tx3,
      DocIds.new (commit tx2) ord = (.ok d2, tx3) ∧
      d2.next_doc_id = id + 1 ∧
      (d2.resolve_doc_id tx3 key).1 = .ok id ∧
      (d2.resolve_doc_id tx3 key).2.1 = d2 ∧
      (d2.resolve_doc_id tx3 key).2.1.next_doc_id = d2.next_doc_id := by
  obtain ⟨e1, e2, e3, e4, e5, e6, e7, e8, e9, e10, e11⟩ :=
    DocIds.resolve_miss d tx key hf h hk
  have q1 : (d.resolve_doc_id tx key).1 = Except.ok id := by rw [hres]
  have q2 : (d.resolve_doc_id tx key).2.1 = d1 := by rw [hres]
  have q3 : (d.resolve_doc_id tx key).2.2 = tx1 := by rw [hres]
  rw [q1] at e1
  rw [q2] at e2 e3 e4 e5
  rw [q2, q3] at e6 e7
  rw [q3] at e8 e9 e10 e11
  injection e1 with hid
  subst hid
  simp [DocIds.finish, e3, e5, hsk, BTree.is_updated, Tx.set, e8] at hfin
  have hstore : tx2.store =
      aset (KeyT.bd none)
        (Val.vState { btree := d1.btree.get_state,
                      next_doc_id := d1.next_doc_id })
        tx1.store := by
    rw [← hfin]
    rfl
  have hbd : ∀ r', alookup (KeyT.bd (some r')) tx2.store =
      alookup (KeyT.bd (some r')) tx1.store := by
    intro r'
    rw [hstore]
    exact alookup_aset_ne _ _ _ _ (by simp)
  have hroot3 : readableRoot (BTree.new d1.btree.get_state)
      { store := tx2.store, failSet := [], readLog := [KeyT.bd none],
        writeLog := [] } = true := by
    have h1' : readableRoot (BTree.new d1.btree.get_state)
        { store := tx2.store, failSet := [], readLog := [KeyT.bd none],
          writeLog := [] } =
        readableRoot d1.btree
        { store := tx2.store, failSet := [], readLog := [KeyT.bd none],
          writeLog := [] } := rfl
    rw [h1', readableRoot_congr d1.btree tx1
      { store := tx2.store, failSet := [], readLog := [KeyT.bd none],
        writeLog := [] } (fun r' => hbd r'), e6]
  have hcon3 : entriesLookup key
      (treeContent (BTree.new d1.btree.get_state)
        { store := tx2.store, failSet := [], readLog := [KeyT.bd none],
          writeLog := [] }) = some d.next_doc_id := by
    have h1' : treeContent (BTree.new d1.btree.get_state)
        { store := tx2.store, failSet := [], readLog := [KeyT.bd none],
          writeLog := [] } =
        treeContent d1.btree
        { store := tx2.store, failSet := [], readLog := [KeyT.bd none],
          writeLog := [] } := rfl
    rw [h1', treeContent_congr d1.btree tx1
      { store := tx2.store, failSet := [], readLog := [KeyT.bd none],
        writeLog := [] } (fun r' => hbd r'), e7]
    exact entriesLookup_insert_self _ _ _
  obtain ⟨g1, g2, g3, g4, g5⟩ := DocIds.resolve_hit
    { state_key := KeyT.bd none, btree := BTree.new d1.btree.get_state,
      next_doc_id := d1.next_doc_id, updated := false }
    { store := tx2.store, failSet := [], readLog := [KeyT.bd none],
      writeLog := [] } key d.next_doc_id hroot3 hcon3
  refine ⟨{ state_key := KeyT.bd none, btree := BTree.new d1.btree.get_state,
            next_doc_id := d1.next_doc_id, updated := false },
          { store := tx2.store, failSet := [], readLog := [KeyT.bd none],
            writeLog := [] }, ?_, ?_, g1, g2, by rw [g2]⟩
  · have hlook : alookup (KeyT.bd none) tx2.store =
        some (Val.vState { btree := d1.btree.get_state,
                           next_doc_id := d1.next_doc_id }) := by
      rw [hstore]
      exact alookup_aset_self _ _ _
    simp [DocIds.new, commit, Tx.get, hlook, State.try_from_val]
  · show d1.next_doc_id = d.next_doc_id + 1
    exact e2

end Docids

namespace Docids

/-- C4 witness: the Foo scenario of the repository's own test, committed
after one fresh resolution, resolves to the same id 0 on re-load. -/
theorem claim_C4_idempotent_across_tx_witness :
    ∃ d2 tx3,
      DocIds.new (commit
        { store := [(KeyT.bi 0, Val.vStr "Foo"),
                    (KeyT.bd (some 0), Val.vNode [("Foo", 0)]),
                    (KeyT.bd none,
                     Val.vState { btree := { order := 75, root := some 0,
                                             nextNodeId := 1 },
                                  next_doc_id := 1 })],
          failSet := [], readLog := [],
          writeLog := [KeyT.bi 0, KeyT.bd (some 0), KeyT.bd none] }) 75 =
        (.ok d2, tx3) ∧
      d2.next_doc_id = 0 + 1 ∧
      (d2.resolve_doc_id tx3 "Foo").1 = .ok 0 ∧
      (d2.resolve_doc_id tx3 "Foo").2.1 = d2 ∧
      (d2.resolve_doc_id tx3 "Foo").2.1.next_doc_id = d2.next_doc_id := by
  exact claim_C4_idempotent_across_tx d75
    { state_key := KeyT.bd none,
      btree := { state := { order := 75, root := some 0, nextNodeId := 1 },
                 updated := true },
      next_doc_id := 1, updated := true }
    txEmpty
    { store := [(KeyT.bi 0, Val.vStr "Foo"),
                (KeyT.bd (some 0), Val.vNode [("Foo", 0)])],
      failSet := [], readLog := [],
      writeLog := [KeyT.bi 0, KeyT.bd (some 0)] }
    { store := [(KeyT.bi 0, Val.vStr "Foo"),
                (KeyT.bd (some 0), Val.vNode [("Foo", 0)]),
                (KeyT.bd none,
                 Val.vState { btree := { order := 75, root := some 0,
                                         nextNodeId := 1 },
                              next_doc_id := 1 })],
      failSet := [], readLog := [],
      writeLog := [KeyT.bi 0, KeyT.bd (some 0), KeyT.bd none] }
    "Foo" 75 0 rfl rfl (by decide) (by decide) rfl rfl

end Docids

namespace Docids

/-- C5: `finish` writes the combined RegistryState (tree state plus
next-id counter) to the state key in one transactional write iff the
registry's dirty flag is set or the tree reports itself updated; when
neither holds it performs zero writes and returns the transaction
untouched. -/
theorem claim_C5_finish_write_iff (d : DocIds) (tx : Tx)
    (hf : d.state_key ∉ tx.failSet) :
    ((d.updated || d.btree.is_updated) = false →
      d.finish tx = (.ok (), tx)) ∧
    ((d.updated || d.btree.is_updated) = true →
      (d.finish tx).1 = .ok () ∧
      (d.finish tx).2.writeLog = tx.writeLog ++ [d.state_key] ∧
      (d.finish tx).2.store =
        aset d.state_key
          (Val.vState { btree := d.btree.get_state,
                        next_doc_id := d.next_doc_id }) tx.store) := by
  constructor
  · intro hcond
    simp [DocIds.finish, hcond]
  · intro hcond
    refine ⟨?_, ?_, ?_⟩ <;>
      simp [DocIds.finish, hcond, Tx.set, hf, State.try_to_val]

/-- C5 witness: a clean registry finishes with zero writes; a dirty one
issues exactly the one state-key write. -/
theorem claim_C5_finish_write_iff_witness :
    d75.finish txEmpty = (.ok (), txEmpty) ∧
    (({ state_key := KeyT.bd none,
        btree := { state := { order := 75, root := some 0, nextNodeId := 1 },
                   updated := true },
        next_doc_id := 1, updated := true } : DocIds).finish txEmpty).1 =
      .ok () ∧
    (({ state_key := KeyT.bd none,
        btree := { state := { order := 75, root := some 0, nextNodeId := 1 },
                   updated := true },
        next_doc_id := 1, updated := true } : DocIds).finish
      txEmpty).2.writeLog = [KeyT.bd none] := by
  refine ⟨(claim_C5_finish_write_iff d75 txEmpty (by decide)).1 rfl, ?_, ?_⟩
  · exact ((claim_C5_finish_write_iff
      { state_key := KeyT.bd none,
        btree := { state := { order := 75, root := some 0, nextNodeId := 1 },
                   updated := true },
        next_doc_id := 1, updated := true } txEmpty (by decide)).2 rfl).1
  · have h := ((claim_C5_finish_write_iff
      { state_key := KeyT.bd none,
        btree := { state := { order := 75, root := some 0, nextNodeId := 1 },
                   updated := true },
        next_doc_id := 1, updated := true } txEmpty (by decide)).2 rfl).2.1
    simpa [txEmpty] using h

/-- C6: constructing the registry performs exactly one transactional
read (of the state key) and no write; it loads the persisted
RegistryState when one is present, and otherwise initializes a fresh
state with the supplied default order and the next-id counter at 0. -/
theorem claim_C6_new_one_read (tx : Tx) (ord : Nat) :
    (DocIds.new tx ord).2.readLog = tx.readLog ++ [KeyT.bd none] ∧
    (DocIds.new tx ord).2.store = tx.store ∧
    (DocIds.new tx ord).2.writeLog = tx.writeLog ∧
    (∀ st, alookup (KeyT.bd none) tx.store = some (Val.vState st) →
      (DocIds.new tx ord).1 =
        .ok { state_key := KeyT.bd none, btree := BTree.new st.btree,
              next_doc_id := st.next_doc_id, updated := false }) ∧
    (alookup (KeyT.bd none) tx.store = none →
      (DocIds.new tx ord).1 =
        .ok { state_key := KeyT.bd none,
              btree := BTree.new (State.new ord).btree,
              next_doc_id := (State.new ord).next_doc_id,
              updated := false } ∧
      (State.new ord).next_doc_id = 0 ∧
      (State.new ord).btree.order = ord) := by
  cases hv : alookup (KeyT.bd none) tx.store with
  | none =>
    refine ⟨?_, ?_, ?_, ?_, ?_⟩ <;>
      simp [DocIds.new, Tx.get, hv, State.try_from_val, State.new,
            TreeState.new]
  | some v =>
    cases v <;>
      refine ⟨?_, ?_, ?_, ?_, ?_⟩ <;>
        simp [DocIds.new, Tx.get, hv, State.try_from_val]

/-- C6 witness: over the empty store, construction reads only the state
key and yields the fresh registry with counter 0 and order 75. -/
theorem claim_C6_new_one_read_witness :
    (DocIds.new txEmpty 75).2.readLog = [KeyT.bd none] ∧
    (DocIds.new txEmpty 75).1 = .ok d75 := by
  have h := claim_C6_new_one_read txEmpty 75
  refine ⟨by simpa [txEmpty] using h.1, ?_⟩
  have h5 := h.2.2.2.2 rfl
  simpa [d75, State.new, TreeState.new] using h5.1

/-- C7: when the value stored at the state key fails to deserialize as a
RegistryState, construction returns the corrupt-state error to the
caller and never falls back to a fresh or default state. -/
theorem claim_C7_corrupt_state (tx : Tx) (ord : Nat) (v : Val)
    (hv : alookup (KeyT.bd none) tx.store = some v)
    (hbad : State.try_from_val v = .error Err.corruptState) :
    (DocIds.new tx ord).1 = .error Err.corruptState ∧
    ∀ d2, (DocIds.new tx ord).1 ≠ .ok d2 := by
  constructor
  · simp [DocIds.new, Tx.get, hv, hbad]
  · intro d2
    simp [DocIds.new, Tx.get, hv, hbad]

/-- C7 witness: junk bytes at the state key make construction fail with
the corrupt-state error. -/
theorem claim_C7_corrupt_state_witness :
    (DocIds.new { store := [(KeyT.bd none, Val.vJunk)], failSet := [],
                  readLog := [], writeLog := [] } 75).1 =
      .error Err.corruptState := by
  exact (claim_C7_corrupt_state
    { store := [(KeyT.bd none, Val.vJunk)], failSet := [], readLog := [],
      writeLog := [] } 75 Val.vJunk rfl rfl).1

/-- C8: `get_doc_key` returns `none` when no ReverseEntry exists for the
id, the stored text when the entry holds valid text bytes, and the
decoding error when the stored bytes are not valid text. -/
theorem claim_C8_get_doc_key_cases (d : DocIds) (tx : Tx) (i : Nat) :
    (alookup (KeyT.bi i) tx.store = none →
      (d.get_doc_key tx i).1 = .ok none) ∧
    (∀ s, alookup (KeyT.bi i) tx.store = some (Val.vStr s) →
      (d.get_doc_key tx i).1 = .ok (some s)) ∧
    (∀ v, alookup (KeyT.bi i) tx.store = some v →
      from_utf8 v = .error Err.utf8 →
      (d.get_doc_key tx i).1 = .error Err.utf8) := by
  refine ⟨?_, ?_, ?_⟩
  · intro hv
    simp [DocIds.get_doc_key, Tx.get, hv]
  · intro s hv
    simp [DocIds.get_doc_key, Tx.get, hv, from_utf8]
  · intro v hv hbad
    simp [DocIds.get_doc_key, Tx.get, hv, hbad]

/-- C8 witness: over a store with a text entry at id 0, an invalid-bytes
entry at id 1, and nothing at id 5, the three outcomes are observed. -/
theorem claim_C8_get_doc_key_cases_witness :
    (d75.get_doc_key { store := [(KeyT.bi 0, Val.vStr "Foo"),
                                 (KeyT.bi 1, Val.vJunk)],
                       failSet := [], readLog := [], writeLog := [] } 0).1 =
      .ok (some "Foo") ∧
    (d75.get_doc_key { store := [(KeyT.bi 0, Val.vStr "Foo"),
                                 (KeyT.bi 1, Val.vJunk)],
                       failSet := [], readLog := [], writeLog := [] } 1).1 =
      .error Err.utf8 ∧
    (d75.get_doc_key { store := [(KeyT.bi 0, Val.vStr "Foo"),
                                 (KeyT.bi 1, Val.vJunk)],
                       failSet := [], readLog := [], writeLog := [] } 5).1 =
      .ok none := by
  refine ⟨?_, ?_, ?_⟩
  · exact (claim_C8_get_doc_key_cases d75 _ 0).2.1 "Foo" (by decide)
  · exact (claim_C8_get_doc_key_cases d75 _ 1).2.2 Val.vJunk (by decide) rfl
  · exact (claim_C8_get_doc_key_cases d75 _ 5).1 (by decide)

theorem resolve_frame_or_ok (d : DocIds) (tx : Tx) (key : String) :
    (d.resolve_doc_id tx key).2.1 = d ∨
    (d.resolve_doc_id tx key).1 = .ok d.next_doc_id := by
  unfold DocIds.resolve_doc_id
  split
  · left; rfl
  · left; rfl
  · dsimp only
    split
    · left; rfl
    · split
      · left; rfl
      · right; rfl

/-- C10: when `resolve_doc_id` returns an error (the ReverseEntry write
or the tree insert failed on a miss), the registry record is returned
unchanged: `next_doc_id` keeps its pre-call value and the dirty flag is
not set, because both are mutated only after both writes succeed. -/
theorem claim_C10_error_frame (d : DocIds) (tx : Tx) (key : String)
    (e : Err) (h : (d.resolve_doc_id tx key).1 = .error e) :
    (d.resolve_doc_id tx key).2.1 = d ∧
    (d.resolve_doc_id tx key).2.1.next_doc_id = d.next_doc_id ∧
    (d.resolve_doc_id tx key).2.1.updated = d.updated := by
  rcases resolve_frame_or_ok d tx key with hd | hok
  · exact ⟨hd, by rw [hd], by rw [hd]⟩
  · rw [hok] at h
    simp at h

/-- C10 witness: with the ReverseEntry write for id 0 failing, resolving
a fresh key errors and the registry is returned unchanged. -/
theorem claim_C10_error_frame_witness :
    (d75.resolve_doc_id txFailBi0 "Foo").2.1 = d75 ∧
    (d75.resolve_doc_id txFailBi0 "Foo").2.1.next_doc_id =
      d75.next_doc_id ∧
    (d75.resolve_doc_id txFailBi0 "Foo").2.1.updated = d75.updated :=
  claim_C10_error_frame d75 txFailBi0 "Foo" Err.storage rfl

end Docids

namespace Docids

/-- C1 witness: two distinct fresh keys over the empty store resolve to
ids 0 and 1, and the registry ends dirty with its counter at 2. -/
theorem claim_C1_contiguous_ids_witness :
    (resolveList d75 txEmpty ["Foo", "Hello"]).1 = .ok [0, 1] ∧
    (resolveList d75 txEmpty ["Foo", "Hello"]).2.1.next_doc_id = 2 ∧
    (resolveList d75 txEmpty ["Foo", "Hello"]).2.1.updated = true := by
  have h := claim_C1_contiguous_ids ["Foo", "Hello"] d75 txEmpty rfl
    (by decide) (by decide) (by decide)
  refine ⟨?_, ?_, ?_⟩
  · have h1 := h.1
    rw [show List.range' d75.next_doc_id ["Foo", "Hello"].length = [0, 1]
      from rfl] at h1
    exact h1
  · have h2 := h.2.1
    simpa [d75] using h2
  · have h3 := h.2.2.1
    simpa [d75] using h3

end Docids

namespace Sql

theorem highlights_total (i : String) :
    ∃ i2 b, highlights i = some (i2, b) := by
  unfold highlights mightbespace
  dsimp only
  cases htag : tag "HIGHLIGHTS" (String.mk (dropWhileL Char.isWhitespace i.data)) with
  | none => exact ⟨_, false, rfl⟩
  | some p =>
    obtain ⟨pi, pv⟩ := p
    exact ⟨pi, true, rfl⟩

/-- C9: in a parsed full-text index definition, the `Index::Search`
order field is `Number::Int 100` when no ORDER clause is supplied, and
the given number when an ORDER clause is supplied. -/
theorem claim_C9_search_order_default (i i1 i2 i3 i4 i5 s1 : String)
    (u2 u4 : Unit) (az : Ident) (sc : Scoring)
    (h1 : tag_no_case "SEARCH" i = some (i1, s1))
    (h2 : shouldbespace i1 = some (i2, u2))
    (h3 : ident i2 = some (i3, az))
    (h4 : shouldbespace i3 = some (i4, u4))
    (h5 : scoring i4 = some (i5, sc)) :
    (order i5 = none →
      ∃ rest hl, search i =
        some (rest, Index.Search az hl sc (Number.Int 100))) ∧
    (∀ i6 n, order i5 = some (i6, n) →
      ∃ rest hl, search i = some (rest, Index.Search az hl sc n)) := by
  constructor
  · intro hord
    obtain ⟨i7, hl, hh⟩ := highlights_total i5
    refine ⟨i7, hl, ?_⟩
    unfold search
    rw [h1]
    dsimp only
    rw [h2]
    dsimp only
    rw [h3]
    dsimp only
    rw [h4]
    dsimp only
    rw [h5]
    dsimp only
    unfold opt
    rw [hord]
    dsimp only
    rw [hh]
    rfl
  · intro i6 n hord
    obtain ⟨i7, hl, hh⟩ := highlights_total i6
    refine ⟨i7, hl, ?_⟩
    unfold search
    rw [h1]
    dsimp only
    rw [h2]
    dsimp only
    rw [h3]
    dsimp only
    rw [h4]
    dsimp only
    rw [h5]
    dsimp only
    unfold opt
    rw [hord]
    dsimp only
    rw [hh]
    rfl

/-- C9 witness: without an ORDER clause the parsed order is 100; with
ORDER 50 it is 50. -/
theorem claim_C9_search_order_default_witness :
    (∃ rest hl, search "SEARCH az BM25" =
      some (rest, Index.Search ⟨"az"⟩ hl Scoring.Bm (Number.Int 100))) ∧
    (∃ rest hl, search "SEARCH az BM25 ORDER 50" =
      some (rest, Index.Search ⟨"az"⟩ hl Scoring.Bm (Number.Int 50))) := by
  constructor
  · exact (claim_C9_search_order_default "SEARCH az BM25" " az BM25"
      "az BM25" " BM25" "BM25" "" "SEARCH" () () ⟨"az"⟩ Scoring.Bm
      (by decide) (by decide) (by decide) (by decide) (by decide)).1 (by decide)
  · exact (claim_C9_search_order_default "SEARCH az BM25 ORDER 50"
      " az BM25 ORDER 50" "az BM25 ORDER 50" " BM25 ORDER 50"
      "BM25 ORDER 50" " ORDER 50" "SEARCH" () () ⟨"az"⟩ Scoring.Bm
      (by decide) (by decide) (by decide) (by decide) (by decide)).2 ""
      (Number.Int 50) (by decide)

end Sql
